import Mathlib

/-!
Verification development for the xbus client runtime: the error
classification (src/error.rs), the ServiceKeeper command/future loop
(src/service_keeper.rs), the WatchTask long-poll loop (src/watcher.rs)
and the form encoding (src/request.rs).

The stateful agents are embedded shallowly: the `KeepTask` and
`WatchTask` structs become Lean structures, the three in-flight future
slots become descriptors recording what was scheduled (operation,
delay, captured arguments), and every externally visible action
(fulfilling a oneshot ack, spawning a network call) becomes an element
of an effect list returned next to the new state.
-/

namespace Xbus

/-! ### Error model (src/error.rs) -/

/-- The `Error` enum of src/error.rs. The payloads of the `Io`, `Http`
and `Ssl` variants are external library errors; they are embedded as
their message strings, which is all the classification code inspects
(it never reads the payloads). The `Io` constructor is spelled `IoErr`
here. -/
inductive Error where
  | IoErr : String → Error
  | Http : String → Error
  | Ssl : String → Error
  | Serialize : String → Error
  | Request : String → String → Error
  | NotPermitted : String → List String → Error
  | Other : String → Error
deriving DecidableEq, Repr

/-- `Error::is_timeout` from src/error.rs: true only for
`Request("DEADLINE_EXCEEDED", _)`. -/
def Error.is_timeout : Error → Bool
  | .Request code _ => code == "DEADLINE_EXCEEDED"
  | _ => false

/-- `Error::is_not_found` from src/error.rs: true only for
`Request("NOT_FOUND", _)`. -/
def Error.is_not_found : Error → Bool
  | .Request code _ => code == "NOT_FOUND"
  | _ => false

/-- `Error::can_retry` from src/error.rs. The final wildcard arm of the
Rust `match` (yielding `true`) covers the `Io` and `Http` variants. -/
def Error.can_retry : Error → Bool
  | .Ssl _ => false
  | .Serialize _ => false
  | .Request code _ =>
      code == "SYSTEM_ERROR" || code == "TOO_MANY_ATTEMPTS" ||
      code == "DEADLINE_EXCEEDED" || code == "CANCELLED"
  | .NotPermitted _ _ => false
  | .Other _ => false
  | .IoErr _ => true
  | .Http _ => true

/-- Modelled from the spec: `Error::io_timeout()` is called in
src/request.rs (wrapping the transport-level deadline expiry) but its
definition is missing from src/. The spec calls its result "the
transport-timeout error", and the spec's error taxonomy classes
transport failures as local I/O, so it is embedded as an `Io` error
carrying a timeout message. -/
def Error.io_timeout : Error := .IoErr "io timeout"

/-! ### Data model (src/client.rs) -/

/-- `ServiceEndpoint` from src/client.rs; the socket address is kept in
its serialised `host:port` string form (the keeper only ever formats it
to a string). -/
structure ServiceEndpoint where
  address : String
  config : Option String
deriving DecidableEq, Repr

/-- `ZoneService` from src/client.rs, the descriptor type the keeper
stores (service_keeper.rs imports it under the alias `ServiceDesc`). -/
structure ServiceDesc where
  service : String
  zone : String
  typ : String
  extension : Option String
  proto : Option String
  description : Option String
  endpoints : List ServiceEndpoint
deriving DecidableEq, Repr

/-- `AppNode` from src/client.rs. -/
structure AppNode where
  label : Option String
  key : String
  config : String
deriving DecidableEq, Repr

/-- `LeaseGrantResult` from src/client.rs (`lease_id: i64`, `ttl: i64`). -/
structure LeaseGrantResult where
  lease_id : Int
  ttl : Int
  new_app_node : Option Bool
deriving DecidableEq, Repr

/-- `PlugResult` from src/client.rs. -/
structure PlugResult where
  lease_id : Int
  ttl : Int
deriving DecidableEq, Repr

/-- Rust's `as u64` cast of an `i64` (two's-complement reinterpretation,
i.e. reduction modulo 2^64). -/
def i64_as_u64 (x : Int) : Nat := (x % ((2:Int) ^ 64)).toNat

/-! ### ServiceKeeper (src/service_keeper.rs)

The `KeepTask` struct is embedded with its future slots replaced by
descriptors of the scheduled operation: what matters for the spec is
which operation is in flight, whether it was delayed, and which
arguments were captured when it was scheduled. oneshot ack senders and
unbounded notifier senders are identified by `Nat` tokens; sending on
one becomes an `Effect`. -/

/-- The 5-second `GRANT_RETRY_INTERVAL` constant of service_keeper.rs. -/
def GRANT_RETRY_INTERVAL : Nat := 5

/-- Descriptor of an in-flight `grant_lease` future (`lease_future`):
`new_lease` optionally sleeps `GRANT_RETRY_INTERVAL` seconds, then calls
`client.grant_lease(ttl, app_node)` with the values captured from the
task. -/
structure GrantFut where
  delayed : Bool
  ttl : Option Int
  app_node : Option AppNode
deriving DecidableEq, Repr

/-- Descriptor of an in-flight `plug_all_services` future
(`replug_future`): `replug_all` captures the current descriptor list,
endpoint and lease id, optionally after a 5-second sleep. -/
structure ReplugFut where
  delayed : Bool
  services : List ServiceDesc
  endpoint : ServiceEndpoint
  lease_id : Int
deriving DecidableEq, Repr

/-- Descriptor of an in-flight keepalive future (`lease_keep_future`):
`keep_lease` sleeps `ttl as u64 / 2` seconds and then calls
`client.keepalive_lease(lease_id)`. -/
structure KeepaliveFut where
  delay_secs : Nat
  lease_id : Int
deriving DecidableEq, Repr

/-- Registration key: `(service, zone)`. -/
abbrev SvcKey := String × String

instance : DecidableEq (Except Error Unit) := fun x y =>
  match x, y with
  | .ok (), .ok () => isTrue rfl
  | .error a, .error b =>
      match decEq a b with
      | isTrue h => isTrue (by rw [h])
      | isFalse h => isFalse (by intro he; cases he; exact h rfl)
  | .ok _, .error _ => isFalse (by intro h; cases h)
  | .error _, .ok _ => isFalse (by intro h; cases h)

/-- Externally visible actions of the keep task. `ackPlug tx r` fulfils
the oneshot plug ack `tx` with `r`; `spawnPlugOne` spawns
`client.plug_service(desc, endpoint, None, Some(lease_id))` whose result
is routed to ack `tx`; `spawnUnplug` spawns a fire-and-forget
`client.unplug_service(service, zone, address)`; `revokeThenSignal`
spawns the revoke-lease future (optionally with the app-node key/label)
and sends `()` to the done ack `tx` once it completes; `notifyOnline`
sends a boolean to the online subscribers. -/
inductive Effect where
  | ackPlug : Nat → Except Error Unit → Effect
  | spawnPlugOne : ServiceDesc → ServiceEndpoint → Int → Nat → Effect
  | spawnUnplug : String → String → String → Effect
  | revokeThenSignal : Int → Option (String × Option String) → Nat → Effect
  | notifyOnline : Bool → Effect
deriving DecidableEq, Repr

/-- The `Cmd` enum of service_keeper.rs; oneshot and unbounded senders
become `Nat` tokens. -/
inductive Cmd where
  | Start : Cmd
  | UpdateEndpoint : ServiceEndpoint → Cmd
  | Plug : ServiceDesc → Nat → Bool → Cmd
  | Unplug : String → String → Cmd
  | Cancel : String → String → Cmd
  | Clear : Nat → Cmd
  | RevokeAndClose : Nat → Cmd
  | NotifyNodeOnline : Nat → Cmd
deriving DecidableEq, Repr

/-- The mutable state of `KeepTask` (service_keeper.rs). `HashMap`s
become association lists (the code never depends on iteration order for
anything the spec states: removals and drains are set-like). -/
structure KeepTask where
  started : Bool
  closing : Bool
  ttl : Option Int
  endpoint : ServiceEndpoint
  app_node : Option AppNode
  services : List (SvcKey × ServiceDesc)
  lease_result : Option LeaseGrantResult
  lease_future : Option GrantFut
  replug_future : Option ReplugFut
  replug_backs : List (SvcKey × Nat)
  lease_keep_future : Option KeepaliveFut
  is_first_online : Bool
  online_notifiers : List Nat
deriving DecidableEq, Repr

/-- `HashMap::contains_key` on the association-list embedding. -/
def containsKey (m : List (SvcKey × α)) (k : SvcKey) : Bool :=
  m.any (fun e => e.1 == k)

/-- `HashMap::insert` on the association-list embedding: replaces the
value under an existing key, otherwise appends. -/
def insertKey (m : List (SvcKey × α)) (k : SvcKey) (v : α) : List (SvcKey × α) :=
  if containsKey m k then m.map (fun e => if e.1 == k then (k, v) else e)
  else m ++ [(k, v)]

/-- `HashMap::remove` on the association-list embedding. -/
def removeKey (m : List (SvcKey × α)) (k : SvcKey) : List (SvcKey × α) :=
  m.filter (fun e => e.1 != k)

/-- The key/label pair passed to `revoke_lease_with_node` when an
`app_node` is configured. -/
def nodeRevokeInfo : Option AppNode → Option (String × Option String)
  | some n => some (n.key, n.label)
  | none => none

/-- `KeepTask::new_lease`: schedules a grant (optionally delayed 5 s)
and clears the keepalive slot, the stored lease and the replug slot. -/
def KeepTask.new_lease (s : KeepTask) (delay_new : Bool) : KeepTask :=
  { s with
    lease_future := some { delayed := delay_new, ttl := s.ttl, app_node := s.app_node },
    lease_keep_future := none,
    lease_result := none,
    replug_future := none }

/-- `KeepTask::keep_lease`: clears the keepalive slot, then (when a
lease is held) schedules `keepalive_lease(lease_id)` after
`ttl as u64 / 2` seconds; without a lease it only logs. -/
def KeepTask.keep_lease (s : KeepTask) : KeepTask :=
  match s.lease_result with
  | some l =>
      let fut : KeepaliveFut :=
        { delay_secs := i64_as_u64 l.ttl / 2, lease_id := l.lease_id }
      { s with lease_keep_future := some fut }
  | none => { s with lease_keep_future := none }

/-- `KeepTask::replug_all`: clears the replug slot, then (when a lease
is held and `services` is non-empty) schedules
`plug_all_services(services, endpoint, Some(lease_id), None)`,
optionally delayed 5 s; an empty `services` map is skipped with an info
log, a missing lease with an error log. -/
def KeepTask.replug_all (s : KeepTask) (delay_plug : Bool) : KeepTask :=
  match s.lease_result with
  | some l =>
      if s.services.isEmpty then { s with replug_future := none }
      else
        let fut : ReplugFut :=
          { delayed := delay_plug, services := s.services.map (fun e => e.2),
            endpoint := s.endpoint, lease_id := l.lease_id }
        { s with replug_future := some fut }
  | none => { s with replug_future := none }

/-- `KeepTask::plug_one`: when a lease is held, spawns
`plug_service(service, endpoint, None, Some(lease_id))` carrying the ack
`tx`; without a lease it logs and drops `tx`. -/
def KeepTask.plug_one (s : KeepTask) (service : ServiceDesc) (tx : Nat) : List Effect :=
  match s.lease_result with
  | some l => [.spawnPlugOne service s.endpoint l.lease_id tx]
  | none => []

/-- `KeepTask::revoke_lease`: when a lease is held, spawns the revoke
future (with the app-node key/label when configured) which sends `()` to
`tx` on completion; without a lease nothing is spawned and `tx` is
dropped. -/
def KeepTask.revoke_lease (s : KeepTask) (tx : Nat) : List Effect :=
  match s.lease_result with
  | some l => [.revokeThenSignal l.lease_id (nodeRevokeInfo s.app_node) tx]
  | none => []

/-- `KeepTask::process_cmd`, branch for branch. -/
def KeepTask.process_cmd (s : KeepTask) : Cmd → KeepTask × List Effect
  | .Start =>
      if !s.started then
        let s1 := { s with started := true }
        if s1.lease_result.isNone then
          if s1.lease_future.isNone then (s1.new_lease false, []) else (s1, [])
        else (s1.replug_all false, [])
      else (s, [])
  | .UpdateEndpoint endpoint =>
      let s1 := { s with endpoint := endpoint }
      if !s1.services.isEmpty && s1.started then (s1.new_lease false, []) else (s1, [])
  | .Plug service tx replaceable =>
      let key : SvcKey := (service.service, service.zone)
      if containsKey s.services key && !replaceable then
        (s, [.ackPlug tx (.error (.Other (key.1 ++ ":" ++ key.2 ++ " has been plugged")))])
      else
        let s1 := { s with services := insertKey s.services key service }
        if s1.started then
          if s1.lease_result.isSome then (s1, s1.plug_one service tx)
          else
            let s2 := { s1 with replug_backs := insertKey s1.replug_backs key tx }
            if s2.lease_future.isNone then (s2.new_lease false, []) else (s2, [])
        else ({ s1 with replug_backs := insertKey s1.replug_backs key tx }, [])
  | .Unplug service zone =>
      let key : SvcKey := (service, zone)
      let hadService := containsKey s.services key
      let s1 := { s with replug_backs := removeKey s.replug_backs key,
                         services := removeKey s.services key }
      if hadService && s1.started then
        (s1, [.spawnUnplug key.1 key.2 s1.endpoint.address])
      else (s1, [])
  | .Cancel service zone =>
      let key : SvcKey := (service, zone)
      ({ s with services := removeKey s.services key,
                replug_backs := removeKey s.replug_backs key }, [])
  | .Clear tx =>
      ({ s with lease_keep_future := none, replug_future := none,
                replug_backs := [], services := [] },
       s.revoke_lease tx)
  | .RevokeAndClose tx => ({ s with closing := true }, s.revoke_lease tx)
  | .NotifyNodeOnline tx => ({ s with online_notifiers := s.online_notifiers ++ [tx] }, [])

/-- Completion handling of the replug future (`process_futures`, the
`replug_future` arm): on `Ok(result)` the slot is cleared, every pending
ack is drained and fulfilled with `Ok(())`, and the stored lease id is
overwritten with `result.lease_id` when it differs; on
`Err(NotPermitted(_, services))` the offending service names are removed
from `services` (logging each), their pending acks are removed and
fulfilled with `NotPermitted("not permitted", [name])`, and
`replug_all(false)` is re-issued; any other error re-issues
`replug_all(delay)` with a delay iff the error is not a timeout. -/
def KeepTask.onReplugResult (s : KeepTask) : Except Error PlugResult → KeepTask × List Effect
  | .ok result =>
      let effects := s.replug_backs.map (fun kv => Effect.ackPlug kv.2 (.ok ()))
      let s1 := { s with replug_future := none, replug_backs := [] }
      let s2 :=
        match s1.lease_result with
        | some l =>
            if l.lease_id != result.lease_id then
              { s1 with lease_result := some { l with lease_id := result.lease_id } }
            else s1
        | none => s1
      (s2, effects)
  | .error (.NotPermitted _ services) =>
      let s1 := { s with services := s.services.filter (fun e => !(services.contains e.1.1)) }
      let removed := s1.replug_backs.filter (fun e => services.contains e.1.1)
      let effects := removed.map
        (fun kv => Effect.ackPlug kv.2 (.error (.NotPermitted "not permitted" [kv.1.1])))
      let s2 := { s1 with replug_backs :=
                    s1.replug_backs.filter (fun e => !(services.contains e.1.1)) }
      (s2.replug_all false, effects)
  | .error e => (s.replug_all (!e.is_timeout), [])

/-- Completion handling of the keepalive future (`process_futures`, the
`lease_keep_future` arm): on `Ok` the next keepalive is scheduled; on a
timeout error the keepalive is rescheduled; on any other error an
immediate (undelayed) grant is scheduled via `new_lease(false)`. -/
def KeepTask.onKeepaliveResult (s : KeepTask) : Except Error Unit → KeepTask × List Effect
  | .ok _ => (s.keep_lease, [])
  | .error e => if e.is_timeout then (s.keep_lease, []) else (s.new_lease false, [])

/-- Whether the effect list contains the revoke-spawn that signals the
done ack `tx`; when it does not, and the state retains no reference to
`tx`, the oneshot sender is dropped and the receiver resolves with a
cancellation error. -/
def signalsDone (effects : List Effect) (tx : Nat) : Bool :=
  effects.any (fun e =>
    match e with
    | .revokeThenSignal _ _ d => d == tx
    | _ => false)

/-! ### WatchTask (src/watcher.rs) -/

/-- The 5-second `WATCH_DELAY` constant of watcher.rs. -/
def WATCH_DELAY : Nat := 5

/-- The `watch_future` slot of `WatchTask`: either a call of the watch
closure with a revision (`(self.watch)(last_revision)`), or the back-off
future `sleep(WATCH_DELAY).map(|_| Ok(None))` installed after an error,
which completes as `Ok(None)` once the delay elapses. -/
inductive WatchFut (T : Type) where
  | poll : Option Nat → WatchFut T
  | delayedNone : Nat → WatchFut T
deriving DecidableEq, Repr

/-- The mutable state of `WatchTask` (watcher.rs): the stored revision
and the in-flight watch future. -/
structure WatchTask (T : Type) where
  last_revision : Option Nat
  watch_future : WatchFut T
deriving DecidableEq, Repr

/-- `WatchTask::watch_once`: with `to_delay` the back-off future is
installed, otherwise the watch closure is invoked with the stored
revision. -/
def WatchTask.watch_once (s : WatchTask T) (to_delay : Bool) : WatchTask T :=
  if to_delay then { s with watch_future := .delayedNone WATCH_DELAY }
  else { s with watch_future := .poll s.last_revision }

/-- A value pushed to the subscriber's unbounded channel. -/
inductive WatchEffect (T : Type) where
  | publish : T → WatchEffect T
deriving DecidableEq, Repr

/-- One iteration of `WatchTask::poll` once the watch future has
completed with `r` (watcher.rs lines 94-115). `getRev` is the
`RevisionResult::get_revision` method of `T`; `sendOk` tells whether
`tx.unbounded_send` succeeds (false once the receiver is dropped).
`none` means the task returned `Ready(())`, i.e. terminated. -/
def watchStep (getRev : T → Nat) (s : WatchTask T) (r : Except Error (Option T))
    (sendOk : Bool) : Option (WatchTask T × List (WatchEffect T)) :=
  match r with
  | .ok (some result) =>
      let revision := getRev result
      let s1 := if revision > 0 then { s with last_revision := some revision } else s
      if sendOk then some (s1.watch_once false, [.publish result]) else none
  | .ok none => some (s.watch_once false, [])
  | .error _ => some (s.watch_once true, [])

/-- The stored-revision update performed for a delivered value: a
positive reported revision replaces the stored one, a zero revision
leaves it unchanged. -/
def nextRevision (getRev : T → Nat) (r : Option Nat) (v : T) : Option Nat :=
  if getRev v > 0 then some (getRev v) else r

/-- The trace of stored revisions along a run that delivers the values
`vs` in order, starting from the initial revision `r0`: the stored
revision before any delivery and after each one. -/
def storedTrace (getRev : T → Nat) (r0 : Option Nat) : List T → List (Option Nat)
  | [] => [r0]
  | v :: vs => r0 :: storedTrace getRev (nextRevision getRev r0 v) vs

/-- Order on stored revisions, with "no revision yet" below everything. -/
def optLe : Option Nat → Option Nat → Bool
  | none, _ => true
  | some _, none => false
  | some a, some b => decide (a ≤ b)

/-! ### Form encoding (src/request.rs)

`Form::set` JSON-serialises the value (external serde_json), replaces a
literal `null` serialisation by the empty string, and appends the pair
through `form_urlencoded::Serializer::append_pair`, which
percent-encodes both key and value byte-wise with the
application/x-www-form-urlencoded rules: ASCII alphanumerics and
`*-._` pass through, space becomes `+`, every other byte becomes `%XX`
with uppercase hex. Strings are embedded as their UTF-8 byte lists
(`List Nat`, each element < 256), since the encoder works on bytes. -/

/-- The bytes of the string `"null"`. -/
def nullBytes : List Nat := [110, 117, 108, 108]

/-- The bytes left unchanged by the form-urlencoded serializer: ASCII
alphanumerics and `*`, `-`, `.`, `_`. -/
def isFormSafe (b : Nat) : Bool :=
  (decide (0x30 ≤ b) && decide (b ≤ 0x39)) ||
  (decide (0x41 ≤ b) && decide (b ≤ 0x5A)) ||
  (decide (0x61 ≤ b) && decide (b ≤ 0x7A)) ||
  b == 0x2A || b == 0x2D || b == 0x2E || b == 0x5F

/-- Uppercase hex digit of a nibble. -/
def hexDigit (n : Nat) : Nat := if n < 10 then 0x30 + n else 0x41 + (n - 10)

/-- Value of a hex digit byte (the decoder accepts both cases). -/
def hexVal (c : Nat) : Option Nat :=
  if 0x30 ≤ c ∧ c ≤ 0x39 then some (c - 0x30)
  else if 0x41 ≤ c ∧ c ≤ 0x46 then some (c - 0x41 + 10)
  else if 0x61 ≤ c ∧ c ≤ 0x66 then some (c - 0x61 + 10)
  else none

/-- Encoding of one byte under the form-urlencoded rules. -/
def encodeByte (b : Nat) : List Nat :=
  if b = 0x20 then [0x2B]
  else if isFormSafe b then [b]
  else [0x25, hexDigit (b / 16), hexDigit (b % 16)]

/-- Byte-wise form-urlencoding of a byte string. -/
def urlencode (bs : List Nat) : List Nat := (bs.map encodeByte).flatten

/-- URL-decoding: `+` becomes space, `%XX` with two hex digits becomes
the byte `XX`, everything else passes through. -/
def urldecode : List Nat → List Nat
  | [] => []
  | 0x2B :: rest => 0x20 :: urldecode rest
  | 0x25 :: h1 :: h2 :: rest2 =>
      match hexVal h1, hexVal h2 with
      | some a, some b => (a * 16 + b) :: urldecode rest2
      | _, _ => 0x25 :: urldecode (h1 :: h2 :: rest2)
  | c :: rest => c :: urldecode rest

/-- The accumulated pairs of a `form_urlencoded::Serializer`, each side
already encoded. -/
abbrev Form := List (List Nat × List Nat)

/-- `Form::set` (src/request.rs): the caller's value has already been
JSON-serialised to `data` by serde_json (external; a serialisation
failure returns early with a `Serialize` error and appends nothing); a
literal `null` serialisation is replaced by the empty string, and the
pair is appended percent-encoded. -/
def Form.set (f : Form) (name : List Nat) (data : List Nat) : Form :=
  let data2 := if data = nullBytes then [] else data
  f ++ [(urlencode name, urlencode data2)]

/-! ### Concrete states used by the witnesses and counterexamples -/

/-- A sample endpoint. -/
def ep0 : ServiceEndpoint := { address := "127.0.0.1:8000", config := none }

/-- A sample descriptor for service `a`, zone `z`. -/
def descA : ServiceDesc :=
  { service := "a", zone := "z", typ := "http", extension := none,
    proto := none, description := none, endpoints := [] }

/-- A sample descriptor for service `b`, zone `z`. -/
def descB : ServiceDesc :=
  { service := "b", zone := "z", typ := "http", extension := none,
    proto := none, description := none, endpoints := [] }

/-- A sample granted lease. -/
def lease0 : LeaseGrantResult := { lease_id := 7, ttl := 60, new_app_node := none }

/-- A started keeper holding lease `lease0`, registrations for `a` and
`b`, and parked acks `1` (for `a`) and `2` (for `b`). -/
def keeperAB : KeepTask :=
  { started := true, closing := false, ttl := some 60, endpoint := ep0,
    app_node := none,
    services := [(("a", "z"), descA), (("b", "z"), descB)],
    lease_result := some lease0, lease_future := none, replug_future := none,
    replug_backs := [(("a", "z"), 1), (("b", "z"), 2)],
    lease_keep_future := none, is_first_online := true, online_notifiers := [] }

/-- A started keeper holding lease `lease0` and only service `a`. -/
def keeperA : KeepTask :=
  { keeperAB with services := [(("a", "z"), descA)], replug_backs := [] }

/-- A started keeper holding no lease and no registrations. -/
def keeperNoLease : KeepTask :=
  { keeperAB with services := [], replug_backs := [], lease_result := none }

/-! ### Helper lemmas -/

theorem optLe_refl (x : Option Nat) : optLe x x = true := by
  cases x with
  | none => rfl
  | some a => simp [optLe]

theorem storedTrace_head {T : Type} (getRev : T → Nat) (r0 : Option Nat) (vs : List T) :
    (storedTrace getRev r0 vs).head? = some r0 := by
  cases vs <;> simp [storedTrace]

theorem storedTrace_chain {T : Type} (getRev : T → Nat) (vs : List T) :
    ∀ (r0 : Option Nat),
      List.Pairwise (fun a b => a ≤ b) (vs.map getRev) →
      (∀ v ∈ vs, 0 < getRev v → ∀ a, r0 = some a → a ≤ getRev v) →
      List.Chain' (fun x y => optLe x y = true) (storedTrace getRev r0 vs) := by
  induction vs with
  | nil => intro r0 _ _; simp [storedTrace]
  | cons v vs ih =>
      intro r0 hp hbound
      simp only [List.map_cons, List.pairwise_cons] at hp
      obtain ⟨hhead, htail⟩ := hp
      simp only [storedTrace]
      rw [List.chain'_cons']
      constructor
      · intro y hy
        rw [storedTrace_head] at hy
        simp only [Option.mem_def, Option.some.injEq] at hy
        subst hy
        unfold nextRevision
        by_cases hv : getRev v > 0
        · rw [if_pos hv]
          cases hr : r0 with
          | none => rfl
          | some a =>
              have hle := hbound v (List.mem_cons_self _ _) hv a hr
              simpa [optLe] using hle
        · rw [if_neg hv]
          exact optLe_refl r0
      · apply ih
        · exact htail
        · intro w hw hwpos a ha
          unfold nextRevision at ha
          by_cases hv : getRev v > 0
          · rw [if_pos hv] at ha
            injection ha with ha'
            subst ha'
            exact hhead (getRev w) (List.mem_map_of_mem getRev hw)
          · rw [if_neg hv] at ha
            exact hbound w (List.mem_cons_of_mem _ hw) hwpos a ha

theorem hexVal_hexDigit (n : Nat) (h : n < 16) : hexVal (hexDigit n) = some n := by
  by_cases h10 : n < 10
  · simp only [hexDigit, if_pos h10, hexVal]
    rw [if_pos (by omega : 0x30 ≤ 0x30 + n ∧ 0x30 + n ≤ 0x39)]
    congr 1
    omega
  · simp only [hexDigit, if_neg h10, hexVal]
    rw [if_neg (by omega : ¬(0x30 ≤ 0x41 + (n - 10) ∧ 0x41 + (n - 10) ≤ 0x39))]
    rw [if_pos (by omega : 0x41 ≤ 0x41 + (n - 10) ∧ 0x41 + (n - 10) ≤ 0x46)]
    congr 1
    omega

theorem isFormSafe_ne (b : Nat) (h : isFormSafe b = true) : b ≠ 0x2B ∧ b ≠ 0x25 := by
  unfold isFormSafe at h
  simp only [Bool.or_eq_true, Bool.and_eq_true, decide_eq_true_eq, beq_iff_eq] at h
  omega

theorem urldecode_plus (t : List Nat) : urldecode (0x2B :: t) = 0x20 :: urldecode t := rfl

theorem urldecode_pct (h1 h2 a b : Nat) (t : List Nat)
    (ha : hexVal h1 = some a) (hb : hexVal h2 = some b) :
    urldecode (0x25 :: h1 :: h2 :: t) = (a * 16 + b) :: urldecode t := by
  simp [urldecode, ha, hb]

theorem urldecode_other (c : Nat) (t : List Nat) (h1 : c ≠ 0x2B) (h2 : c ≠ 0x25) :
    urldecode (c :: t) = c :: urldecode t := by
  rw [urldecode.eq_def]
  split <;> simp_all

theorem urldecode_encodeByte (b : Nat) (hb : b < 256) (t : List Nat) :
    urldecode (encodeByte b ++ t) = b :: urldecode t := by
  unfold encodeByte
  by_cases hsp : b = 0x20
  · subst hsp
    rw [if_pos rfl]
    exact urldecode_plus t
  · rw [if_neg hsp]
    by_cases hsafe : isFormSafe b = true
    · rw [if_pos hsafe]
      obtain ⟨h1, h2⟩ := isFormSafe_ne b hsafe
      simpa using urldecode_other b t h1 h2
    · rw [if_neg hsafe]
      have hhi : b / 16 < 16 := by omega
      have hlo : b % 16 < 16 := by omega
      have hsplit : ([0x25, hexDigit (b / 16), hexDigit (b % 16)] ++ t) =
          0x25 :: hexDigit (b / 16) :: hexDigit (b % 16) :: t := rfl
      rw [hsplit, urldecode_pct _ _ _ _ t (hexVal_hexDigit _ hhi) (hexVal_hexDigit _ hlo)]
      congr 1
      omega

theorem urldecode_urlencode (data : List Nat) (h : ∀ b ∈ data, b < 256) :
    urldecode (urlencode data) = data := by
  induction data with
  | nil => rfl
  | cons b bs ih =>
      have hb : b < 256 := h b (List.mem_cons_self _ _)
      have hrest : ∀ x ∈ bs, x < 256 := fun x hx => h x (List.mem_cons_of_mem _ hx)
      show urldecode (((b :: bs).map encodeByte).flatten) = b :: bs
      rw [List.map_cons, List.flatten_cons, urldecode_encodeByte b hb]
      rw [show (bs.map encodeByte).flatten = urlencode bs from rfl, ih hrest]

/-! ### Claim theorems -/

/-- C4: the classification table of src/error.rs. `can_retry` is false
for TLS (`Ssl`), `Serialize`, `NotPermitted` and `Other` errors, true
for a `Request` error exactly when its code is one of SYSTEM_ERROR,
TOO_MANY_ATTEMPTS, DEADLINE_EXCEEDED, CANCELLED, and true for the
transport variants (`IoErr`, `Http`); `is_not_found` holds exactly for
`Request` with code NOT_FOUND; `is_timeout` holds for
`Request("DEADLINE_EXCEEDED", _)`. The final conjunct evaluates the
code at the claim's failing input: `is_timeout` of the spec-modelled
transport-timeout `Error.io_timeout` is `false`, where the claim (and
the spec's long-poll design, which relies on `is_timeout` to turn
transport timeouts into `Ok(None)`) requires `true`. -/
theorem error_classification_table :
    (∀ m, (Error.Ssl m).can_retry = false) ∧
    (∀ m, (Error.Serialize m).can_retry = false) ∧
    (∀ m ks, (Error.NotPermitted m ks).can_retry = false) ∧
    (∀ m, (Error.Other m).can_retry = false) ∧
    (∀ code m, (Error.Request code m).can_retry =
      (code == "SYSTEM_ERROR" || code == "TOO_MANY_ATTEMPTS" ||
       code == "DEADLINE_EXCEEDED" || code == "CANCELLED")) ∧
    (∀ m, (Error.IoErr m).can_retry = true) ∧
    (∀ m, (Error.Http m).can_retry = true) ∧
    (∀ code m, (Error.Request code m).is_not_found = (code == "NOT_FOUND")) ∧
    (∀ m, (Error.IoErr m).is_not_found = false) ∧
    (∀ m, (Error.Http m).is_not_found = false) ∧
    (∀ m, (Error.Ssl m).is_not_found = false) ∧
    (∀ m, (Error.Serialize m).is_not_found = false) ∧
    (∀ m ks, (Error.NotPermitted m ks).is_not_found = false) ∧
    (∀ m, (Error.Other m).is_not_found = false) ∧
    (∀ m, (Error.Request "DEADLINE_EXCEEDED" m).is_timeout = true) ∧
    (∀ code m, (Error.Request code m).is_timeout = (code == "DEADLINE_EXCEEDED")) ∧
    (∀ m, (Error.IoErr m).is_timeout = false) ∧
    Error.io_timeout.is_timeout = false := by
  refine ⟨fun m => rfl, fun m => rfl, fun m ks => rfl, fun m => rfl, fun code m => rfl,
    fun m => rfl, fun m => rfl, fun code m => rfl, fun m => rfl, fun m => rfl, fun m => rfl,
    fun m => rfl, fun m ks => rfl, fun m => rfl, fun m => ?_, fun code m => rfl,
    fun m => rfl, rfl⟩
  simp [Error.is_timeout]

/-- C2: when the replug future completes with `Ok(result)`, the replug
slot is cleared, every pending ack is drained and fulfilled with
`Ok(())`, and the active lease (when present) keeps all its fields
except that its `lease_id` becomes `result.lease_id` (a no-op when they
already agree); everything else in the task is unchanged. -/
theorem replug_ok_drains_pending (s : KeepTask) (result : PlugResult) :
    s.onReplugResult (.ok result) =
      ({ s with replug_future := none, replug_backs := [],
                lease_result := s.lease_result.map
                  (fun l => { l with lease_id := result.lease_id }) },
       s.replug_backs.map (fun kv => Effect.ackPlug kv.2 (.ok ()))) := by
  unfold KeepTask.onReplugResult
  cases h : s.lease_result with
  | none => simp [h]
  | some l =>
      obtain ⟨lid, lttl, lnode⟩ := l
      by_cases he : lid = result.lease_id
      · subst he
        simp [h, bne]
      · simp [h, he, bne]

/-- C1 (amended): when the replug future completes with
`Err(NotPermitted(_, names))`, exactly the registrations whose service
name is in `names` are removed, exactly the pending acks whose service
name is in `names` are removed and each is fulfilled with
`NotPermitted("not permitted", [name])`, every other registration and
pending ack survives unchanged, the lease is untouched, and a new
undelayed Replug-all over the surviving descriptors is scheduled when
the surviving set is non-empty; when every registration was removed the
replug is skipped (empty-services special case) and no replug future is
scheduled. -/
theorem replug_not_permitted_handling (s : KeepTask) (l : LeaseGrantResult)
    (msg : String) (names : List String) (h : s.lease_result = some l) :
    ((s.onReplugResult (.error (.NotPermitted msg names))).1.services =
       s.services.filter (fun e => !(names.contains e.1.1)) ∧
     (s.onReplugResult (.error (.NotPermitted msg names))).1.replug_backs =
       s.replug_backs.filter (fun e => !(names.contains e.1.1)) ∧
     (s.onReplugResult (.error (.NotPermitted msg names))).2 =
       (s.replug_backs.filter (fun e => names.contains e.1.1)).map
         (fun kv => Effect.ackPlug kv.2 (.error (.NotPermitted "not permitted" [kv.1.1]))) ∧
     (s.onReplugResult (.error (.NotPermitted msg names))).1.lease_result = some l) ∧
    (s.services.filter (fun e => !(names.contains e.1.1)) ≠ [] →
       (s.onReplugResult (.error (.NotPermitted msg names))).1.replug_future =
         some ⟨false,
               (s.services.filter (fun e => !(names.contains e.1.1))).map (fun e => e.2),
               s.endpoint, l.lease_id⟩) ∧
    (s.services.filter (fun e => !(names.contains e.1.1)) = [] →
       (s.onReplugResult (.error (.NotPermitted msg names))).1.replug_future = none) := by
  unfold KeepTask.onReplugResult KeepTask.replug_all
  simp only [h]
  refine ⟨⟨?_, ?_, ?_, ?_⟩, ?_, ?_⟩
  · split <;> rfl
  · split <;> rfl
  · trivial
  · split <;> rfl
  · intro hne
    have hc : ¬((s.services.filter (fun e => !(names.contains e.1.1))).isEmpty = true) := by
      rw [List.isEmpty_iff]
      exact hne
    rw [if_neg hc]
  · intro hemp
    have hc : (s.services.filter (fun e => !(names.contains e.1.1))).isEmpty = true := by
      rw [List.isEmpty_iff]
      exact hemp
    rw [if_pos hc]

/-- C7: when the keepalive future fails while a lease is held, a
timeout error reschedules the keepalive (same lease id, `ttl/2` delay)
and changes nothing else; any other error schedules an undelayed Grant
and clears the keepalive slot, the replug slot and the stored lease; in
both cases the registrations and the pending acks are untouched. -/
theorem keepalive_err_handling (s : KeepTask) (l : LeaseGrantResult) (e : Error)
    (h : s.lease_result = some l) :
    (e.is_timeout = true →
      s.onKeepaliveResult (.error e) =
        ({ s with lease_keep_future := some ⟨i64_as_u64 l.ttl / 2, l.lease_id⟩ }, [])) ∧
    (e.is_timeout = false →
      s.onKeepaliveResult (.error e) =
        ({ s with lease_future := some ⟨false, s.ttl, s.app_node⟩,
                  lease_keep_future := none, lease_result := none,
                  replug_future := none }, [])) ∧
    (s.onKeepaliveResult (.error e)).1.services = s.services ∧
    (s.onKeepaliveResult (.error e)).1.replug_backs = s.replug_backs := by
  unfold KeepTask.onKeepaliveResult KeepTask.keep_lease KeepTask.new_lease
  refine ⟨fun ht => ?_, fun ht => ?_, ?_, ?_⟩
  · simp [ht, h]
  · simp [ht, h]
  · by_cases ht : e.is_timeout = true <;> simp [ht, h]
  · by_cases ht : e.is_timeout = true <;> simp [ht, h]

/-- C8 (amended): a `Plug` with `replaceable = false` whose key
`(service, zone)` is already registered leaves the whole task state
unchanged and fulfils the caller's ack with
`Err(Other("service:zone has been plugged"))` (the message carries the
key, it is not the literal "already plugged"); when the key is absent
the descriptor is inserted into `services`. -/
theorem plug_not_replaceable (s : KeepTask) (service : ServiceDesc) (tx : Nat) :
    (containsKey s.services (service.service, service.zone) = true →
      s.process_cmd (.Plug service tx false) =
        (s, [.ackPlug tx (.error (.Other
              (service.service ++ ":" ++ service.zone ++ " has been plugged")))])) ∧
    (containsKey s.services (service.service, service.zone) = false →
      (s.process_cmd (.Plug service tx false)).1.services =
        insertKey s.services (service.service, service.zone) service) := by
  constructor
  · intro h
    simp [KeepTask.process_cmd, h]
  · intro h
    simp only [KeepTask.process_cmd, h]
    split_ifs <;> simp_all [KeepTask.new_lease, KeepTask.plug_one]

/-- C3 (amended): processing `Clear` (from `clear()`) or
`RevokeAndClose` (from `close()`) while a lease is held spawns exactly
one revoke future that sends `()` to the done ack once the revoke
completes; when no lease is held nothing at all is spawned and the done
sender is dropped (it is not retained in the state), so the returned
future resolves with a oneshot cancellation error rather than with
`()`. -/
theorem clear_close_done_signal (s : KeepTask) (tx : Nat) :
    (∀ l, s.lease_result = some l →
      s.process_cmd (.Clear tx) =
        ({ s with lease_keep_future := none, replug_future := none,
                  replug_backs := [], services := [] },
         [.revokeThenSignal l.lease_id (nodeRevokeInfo s.app_node) tx]) ∧
      s.process_cmd (.RevokeAndClose tx) =
        ({ s with closing := true },
         [.revokeThenSignal l.lease_id (nodeRevokeInfo s.app_node) tx])) ∧
    (s.lease_result = none →
      (s.process_cmd (.Clear tx)).2 = [] ∧
      (s.process_cmd (.RevokeAndClose tx)).2 = []) := by
  constructor
  · intro l h
    constructor <;> simp [KeepTask.process_cmd, KeepTask.revoke_lease, h]
  · intro h
    constructor <;> simp [KeepTask.process_cmd, KeepTask.revoke_lease, h]

/-- C10 (amended): `Clear` empties `services` and the pending acks and
clears the keepalive and replug slots, but leaves `lease_result` (and
`started`, and any in-flight grant) unchanged, so the revoked lease is
still recorded as active. Consequently a later `Plug` (while started)
spawns a Plug-one under the revoked lease id and schedules no fresh
grant; a later `Start` also grants no fresh lease, and schedules no
Replug-all either, because `services` is empty after the clear. -/
theorem clear_keeps_lease (s : KeepTask) (txd : Nat) :
    ((s.process_cmd (.Clear txd)).1.lease_result = s.lease_result ∧
     (s.process_cmd (.Clear txd)).1.services = [] ∧
     (s.process_cmd (.Clear txd)).1.replug_backs = [] ∧
     (s.process_cmd (.Clear txd)).1.lease_keep_future = none ∧
     (s.process_cmd (.Clear txd)).1.replug_future = none ∧
     (s.process_cmd (.Clear txd)).1.started = s.started ∧
     (s.process_cmd (.Clear txd)).1.lease_future = s.lease_future) ∧
    (∀ l, s.lease_result = some l →
      (((s.process_cmd (.Clear txd)).1.process_cmd .Start).1.lease_future = s.lease_future ∧
       ((s.process_cmd (.Clear txd)).1.process_cmd .Start).1.replug_future = none) ∧
      (∀ desc tx, s.started = true →
        ((s.process_cmd (.Clear txd)).1.process_cmd (.Plug desc tx false)).2 =
          [.spawnPlugOne desc s.endpoint l.lease_id tx] ∧
        ((s.process_cmd (.Clear txd)).1.process_cmd (.Plug desc tx false)).1.lease_future =
          s.lease_future)) := by
  refine ⟨⟨rfl, rfl, rfl, rfl, rfl, rfl, rfl⟩, fun l h => ⟨?_, fun desc tx hst => ?_⟩⟩
  · cases hs : s.started <;>
      simp [KeepTask.process_cmd, KeepTask.replug_all, h, hs]
  · constructor <;>
      simp [KeepTask.process_cmd, KeepTask.plug_one, containsKey, insertKey, h, hst]

/-- C6: when the watch future yields `Ok(None)` the watch closure is
re-invoked immediately with the stored revision; when it yields
`Err(e)` the 5-second back-off future is installed instead, the stored
revision is unchanged and the task does not terminate; when the
back-off future then completes (it yields `Ok(None)`), the closure is
re-invoked with the still-unchanged stored revision. -/
theorem watch_none_err_transitions (T : Type) (getRev : T → Nat)
    (s : WatchTask T) (e : Error) (b : Bool) :
    watchStep getRev s (.ok none) b =
      some ({ s with watch_future := .poll s.last_revision }, []) ∧
    watchStep getRev s (.error e) b =
      some ({ s with watch_future := .delayedNone WATCH_DELAY }, []) ∧
    watchStep getRev { s with watch_future := .delayedNone WATCH_DELAY } (.ok none) b =
      some ({ s with watch_future := .poll s.last_revision }, []) := by
  refine ⟨rfl, rfl, rfl⟩

/-- C5 (amended): a delivered value with a positive reported revision
replaces the stored revision, one reporting revision 0 leaves it
unchanged; the value is published and the next poll is issued with the
(possibly updated) stored revision. Consequently the trace of stored
revisions is non-decreasing whenever the delivered revisions are
non-decreasing and the caller-supplied initial revision (when there is
one) does not exceed any positive delivered revision; the extra initial
condition is forced by the counterexample of an initial revision above
the first delivered one. -/
theorem watch_value_revision_update (T : Type) (getRev : T → Nat) :
    (∀ (s : WatchTask T) (v : T),
      watchStep getRev s (.ok (some v)) true =
        some ({ last_revision := nextRevision getRev s.last_revision v,
                watch_future := .poll (nextRevision getRev s.last_revision v) },
              [.publish v])) ∧
    (∀ (r0 : Option Nat) (vs : List T),
      List.Chain' (fun a b => a ≤ b) (vs.map getRev) →
      (∀ v ∈ vs, 0 < getRev v → ∀ a, r0 = some a → a ≤ getRev v) →
      List.Chain' (fun x y => optLe x y = true) (storedTrace getRev r0 vs)) := by
  constructor
  · intro s v
    simp only [watchStep, WatchTask.watch_once, nextRevision]
    by_cases hv : getRev v > 0 <;> simp [hv]
  · intro r0 vs hchain hbound
    exact storedTrace_chain getRev vs r0 (List.chain'_iff_pairwise.mp hchain) hbound

/-- C9: a value whose JSON serialisation is the literal `null` is
transmitted by `Form::set` with an empty (encoded-empty) value; any
other serialisation is appended percent-encoded, and URL-decoding the
encoded value recovers exactly the original JSON byte string. -/
theorem form_set_null_roundtrip :
    (∀ (f : Form) (name : List Nat),
      Form.set f name nullBytes = f ++ [(urlencode name, [])]) ∧
    (∀ (f : Form) (name data : List Nat), data ≠ nullBytes →
      Form.set f name data = f ++ [(urlencode name, urlencode data)]) ∧
    (∀ data : List Nat, (∀ b ∈ data, b < 256) → urldecode (urlencode data) = data) := by
  refine ⟨fun f name => ?_, fun f name data hd => ?_, urldecode_urlencode⟩
  · simp [Form.set, urlencode]
  · simp [Form.set, hd]

/-! ### Witnesses and counterexamples -/

/-- C1 counterexample: when every registered service is named in the
NotPermitted error the surviving set is empty, and the code schedules
no new Replug-all at all (the empty-services special case skips it),
refuting the claim's unconditional "immediately schedules a new
Replug-all over the surviving set". -/
theorem replug_not_permitted_empty_cex :
    (keeperA.onReplugResult (.error (.NotPermitted "m" ["a"]))).1.replug_future = none ∧
    (keeperA.onReplugResult (.error (.NotPermitted "m" ["a"]))).1.services = [] := by
  exact ⟨rfl, rfl⟩

/-- C1 witness: on a keeper holding services `a` and `b` with parked
acks 1 and 2, a NotPermitted naming `b` fulfils exactly ack 2 with
NotPermitted and immediately schedules a Replug-all over `[a]`. -/
theorem replug_not_permitted_witness :
    (keeperAB.onReplugResult (.error (.NotPermitted "m" ["b"]))).2 =
      [.ackPlug 2 (.error (.NotPermitted "not permitted" ["b"]))] ∧
    (keeperAB.onReplugResult (.error (.NotPermitted "m" ["b"]))).1.replug_future =
      some ⟨false, [descA], ep0, 7⟩ := by
  have h := replug_not_permitted_handling keeperAB lease0 "m" ["b"] rfl
  exact ⟨(h.1.2.2.1).trans (by decide), (h.2.1 (by decide)).trans (by decide)⟩

/-- C3 counterexample: processing `Clear` while no lease is held spawns
nothing: no effect signals the done ack, and the state retains no
reference to it, so the sender is dropped and the `clear()` future
resolves with a oneshot cancellation error, not with `()` as the claim
states. -/
theorem clear_no_lease_cex :
    signalsDone ((keeperNoLease.process_cmd (.Clear 9)).2) 9 = false ∧
    (keeperNoLease.process_cmd (.Clear 9)).2 = [] := by
  exact ⟨rfl, rfl⟩

/-- C3 witness: with lease 7 held, `Clear` spawns the revoke that
signals done ack 5 on completion. -/
theorem clear_close_done_signal_witness :
    keeperA.process_cmd (.Clear 5) =
      ({ keeperA with lease_keep_future := none, replug_future := none,
                      replug_backs := [], services := [] },
       [.revokeThenSignal 7 none 5]) := by
  exact ((clear_close_done_signal keeperA 5).1 lease0 rfl).1

/-- C5 counterexample: with initial revision 10 and the single
delivered revision 3 (trivially a non-decreasing delivery sequence) the
stored revision decreases from 10 to 3, refuting the claim's
unconditional "the stored revision is non-decreasing whenever the
delivered revisions are non-decreasing". -/
theorem watch_revision_decrease_cex :
    List.Chain' (fun a b => a ≤ b) ([3].map (fun n : Nat => n)) ∧
    ¬ List.Chain' (fun x y => optLe x y = true)
        (storedTrace (fun n : Nat => n) (some 10) [3]) := by
  constructor
  · simp
  · intro hch
    have : storedTrace (fun n : Nat => n) (some 10) [3] = [some 10, some 3] := rfl
    rw [this, List.chain'_cons] at hch
    exact absurd hch.1 (by decide)

/-- C5 witness: instantiating the revision-update equation and the
monotonicity statement at concrete inputs. -/
theorem watch_value_revision_witness :
    watchStep (fun n : Nat => n) ⟨none, .poll none⟩ (.ok (some 3)) true =
      some (⟨some 3, .poll (some 3)⟩, [.publish 3]) ∧
    List.Chain' (fun x y => optLe x y = true)
      (storedTrace (fun n : Nat => n) none [3, 5]) := by
  constructor
  · exact (watch_value_revision_update Nat (fun n => n)).1 ⟨none, .poll none⟩ 3
  · exact (watch_value_revision_update Nat (fun n => n)).2 none [3, 5]
      (by simp) (fun v hv hp a ha => Option.noConfusion ha)

/-- C7 witness: a DEADLINE_EXCEEDED keepalive failure on a keeper with
lease 7 and ttl 60 reschedules the keepalive with a 30-second delay and
changes nothing else. -/
theorem keepalive_err_witness :
    keeperA.onKeepaliveResult (.error (.Request "DEADLINE_EXCEEDED" "x")) =
      ({ keeperA with lease_keep_future := some ⟨30, 7⟩ }, []) := by
  have h := (keepalive_err_handling keeperA lease0
    (.Request "DEADLINE_EXCEEDED" "x") rfl).1 (by rfl)
  exact h.trans (by decide)

/-- C8 counterexample: a duplicate plug of `a`/`z` acks
`Other("a:z has been plugged")`, which is not the
`Other("already plugged")` the claim states. -/
theorem plug_duplicate_message_cex :
    (keeperAB.process_cmd (.Plug descA 1 false)).2 =
      [.ackPlug 1 (.error (.Other "a:z has been plugged"))] ∧
    Error.Other "a:z has been plugged" ≠ Error.Other "already plugged" := by
  constructor
  · rfl
  · decide

/-- C8 witness: the duplicate branch at a concrete keeper, with the
full state-unchanged equation. -/
theorem plug_not_replaceable_witness :
    keeperAB.process_cmd (.Plug descA 9 false) =
      (keeperAB, [.ackPlug 9 (.error (.Other "a:z has been plugged"))]) := by
  have h := (plug_not_replaceable keeperAB descA 9).1 rfl
  exact h.trans (by decide)

/-- C9 witness: round-tripping the JSON bytes of the object with one
field `a` mapped to 1 through the form encoder, and evaluating the
encoded pair. -/
theorem form_set_roundtrip_witness :
    Form.set [] [107] [123, 34, 97, 34, 58, 49, 125] =
      [([107], [37, 55, 66, 37, 50, 50, 97, 37, 50, 50, 37, 51, 65, 49, 37, 55, 68])] ∧
    urldecode (urlencode [123, 34, 97, 34, 58, 49, 125]) = [123, 34, 97, 34, 58, 49, 125] := by
  constructor
  · exact (form_set_null_roundtrip.2.1 [] [107] [123, 34, 97, 34, 58, 49, 125]
      (by decide)).trans (by decide)
  · exact form_set_null_roundtrip.2.2 [123, 34, 97, 34, 58, 49, 125] (by decide)

/-- C10 counterexample: after `Clear` the keeper still records lease 7,
yet a subsequent `Start` schedules neither a Replug-all (the replug
slot stays empty, since `services` was emptied) nor a Grant, refuting
the claim's "a subsequent Start ... schedules a Replug-all ... under
that revoked lease id". -/
theorem clear_then_start_no_replug_cex :
    ((keeperAB.process_cmd (.Clear 0)).1.lease_result = some lease0) ∧
    (((keeperAB.process_cmd (.Clear 0)).1.process_cmd .Start).1.replug_future = none) ∧
    (((keeperAB.process_cmd (.Clear 0)).1.process_cmd .Start).1.lease_future = none) := by
  exact ⟨rfl, rfl, rfl⟩

/-- C10 witness: after a `Clear` on the concrete keeper a `Plug` is
served by a Plug-one under the old (revoked) lease id 7, with no grant
scheduled. -/
theorem clear_keeps_lease_witness :
    ((keeperAB.process_cmd (.Clear 0)).1.process_cmd (.Plug descB 4 false)).2 =
      [.spawnPlugOne descB ep0 7 4] := by
  have h := (((clear_keeps_lease keeperAB 0).2 lease0 rfl).2 descB 4 rfl).1
  exact h.trans (by decide)

end Xbus
